import Mathlib

/-!
Shallow embedding of the core of `astrbot-qq-group-daily-analysis`:
the paginated message-fetch loop and the statistics aggregator from
`src/core/message_handler.py`, the data model from
`src/models/data_models.py`, and the template-method extraction
pipeline from `src/analysis/analyzers/base_analyzer.py`.

Modelling conventions:
* timestamps are epoch seconds as `Int`; `datetime.now()` is a parameter
  `now`, `timedelta(days=d)` is `d * 86400` seconds (naive-datetime
  subtraction is exact seconds arithmetic);
* `datetime.fromtimestamp(t).hour` is modelled with time-zone offset
  zero, `((t % 86400) / 3600)`; a fixed local offset only relabels all
  hours uniformly and is absorbed into the timestamps;
* Python dicts used as counters (`defaultdict(int)`, `face_details`)
  are insertion-ordered association lists, matching dict iteration
  order, which `max(hour_counts.items(), ...)` depends on;
* the external message source is a list of page responses consumed one
  per `call_action` request; an exhausted list ends the loop, which is
  faithful for every execution whose request count does not exceed the
  list length (the request-count bounds proved below);
* fallible collaborator calls are `Except String`/`Option` values; the
  `try/except` blocks become total case analysis.
-/

namespace GroupDaily

/-! ## Data model (`src/models/data_models.py`) -/

/-- The `SummaryTopic` dataclass. -/
structure SummaryTopic where
  topic : String
  contributors : List String
  detail : String
deriving Repr, DecidableEq

/-- The `GoldenQuote` dataclass. -/
structure GoldenQuote where
  content : String
  sender : String
  reason : String
deriving Repr, DecidableEq

/-- The `TokenUsage` dataclass; all fields default to `0`. -/
structure TokenUsage where
  prompt_tokens : Nat := 0
  completion_tokens : Nat := 0
  total_tokens : Nat := 0
deriving Repr, DecidableEq

/-- The `EmojiStatistics` dataclass. `face_details` is the insertion-ordered
dict from detail keys to occurrence counts. -/
structure EmojiStatistics where
  face_count : Nat := 0
  mface_count : Nat := 0
  bface_count : Nat := 0
  sface_count : Nat := 0
  other_emoji_count : Nat := 0
  face_details : List (String × Nat) := []
deriving Repr, DecidableEq

/-- The `total_emoji_count` property of `EmojiStatistics`. -/
def EmojiStatistics.total_emoji_count (e : EmojiStatistics) : Nat :=
  e.face_count + e.mface_count + e.bface_count + e.sface_count + e.other_emoji_count

/-- The `GroupStatistics` dataclass, polymorphic in the payload type of the
`activity_visualization` field (the visualizer lives outside the core). -/
structure GroupStatistics (V : Type) where
  message_count : Nat
  total_characters : Nat
  participant_count : Nat
  most_active_period : String
  golden_quotes : List GoldenQuote
  emoji_count : Nat
  emoji_statistics : EmojiStatistics := {}
  activity_visualization : V
  token_usage : TokenUsage := {}
deriving Repr, DecidableEq

/-! ## Messages

One OneBot message dict, as far as `message_handler.py` reads it:
`msg["time"]`, `str(msg.get("sender", \x7b\x7d).get("user_id", ""))`,
`msg["message_id"]` (plain indexing, may be missing, hence `Option`),
and the `msg.get("message", [])` segment list. Each segment carries the
fields the statistics pass reads, already defaulted the way
`content.get("data", \x7b\x7d).get(..., "unknown")` defaults them;
`record`/`video` segments carry `str(content.get("data", \x7b\x7d))`. -/

inductive Content where
  | text (s : String)
  | face (id : String)
  | mface (emoji_id : String)
  | bface (p : String)
  | sface (id : String)
  | image (summary : String) (file : String)
  | record (dataStr : String)
  | video (dataStr : String)
  | otherSeg
deriving Repr, DecidableEq

structure Msg where
  time : Int
  sender : String
  message_id : Option Nat := none
  message : List Content := []
deriving Repr, DecidableEq

/-! ## The fetch loop (`MessageHandler.fetch_group_messages`) -/

/-- One response of `call_action("get_group_msg_history", ...)`:
`invalid` is a falsy result or one without a `"messages"` key, `exn` is
a raised exception for the round, `page ms` a well-formed response. -/
inductive PageResp where
  | invalid
  | exn
  | page (ms : List Msg)
deriving Repr, DecidableEq

/-- Number of messages carried by a page response. -/
def PageResp.size : PageResp → Nat
  | .page ms => ms.length
  | _ => 0

/-- Result of a fetch: the collected message list, the final
`query_rounds`, and the number of page requests issued (instrumentation
counting `call_action` invocations). -/
structure FetchResult where
  messages : List Msg
  query_rounds : Nat
  requests : Nat
deriving Repr, DecidableEq

/-- Models `if self.bot_qq_id and sender_id == self.bot_qq_id: continue`,
the self-message test; an unresolved (`None`) or empty id filters
nothing. -/
def selfFilter (botQQId : Option String) (sender : String) : Bool :=
  match botQQId with
  | none => false
  | some b => if b = "" then false else sender == b

/-- A message survives the round's per-message filtering when it is not
a self-message and `start_time <= msg_time <= end_time`. -/
def keepMsg (botQQId : Option String) (startT endT : Int) (m : Msg) : Bool :=
  !selfFilter botQQId m.sender && decide (startT ≤ m.time) && decide (m.time ≤ endT)

/-- The `while len(messages) < max_messages and query_rounds < max_rounds`
loop body, one page response consumed per iteration. State mirrors the
Python locals `messages`, `message_seq`, `query_rounds`,
`consecutive_failures`; `reqs` counts requests issued so far.

Branches, in source order: the loop-condition check; invalid result /
raised exception increment `consecutive_failures` and break at 3; an
empty page breaks; a non-empty page resets the failure counter, appends
the filtered messages, breaks if the last-processed timestamp is older
than `start_time`, breaks if nothing was kept, else reads
`round_messages[0]["message_id"]` (a missing key raises, landing in the
round's `except`: counter becomes `0 + 1`) and increments
`query_rounds`. -/
def fetchGo (maxRounds maxMessages : Nat) (botQQId : Option String)
    (startT endT : Int) :
    List Msg → Nat → Nat → Nat → Nat → List PageResp → FetchResult
  | msgs, _, qr, _, reqs, [] => ⟨msgs, qr, reqs⟩
  | msgs, seq, qr, cf, reqs, p :: rest =>
    if msgs.length < maxMessages ∧ qr < maxRounds then
      match p with
      | .invalid =>
        if cf + 1 ≥ 3 then ⟨msgs, qr, reqs + 1⟩
        else fetchGo maxRounds maxMessages botQQId startT endT
          msgs seq qr (cf + 1) (reqs + 1) rest
      | .exn =>
        if cf + 1 ≥ 3 then ⟨msgs, qr, reqs + 1⟩
        else fetchGo maxRounds maxMessages botQQId startT endT
          msgs seq qr (cf + 1) (reqs + 1) rest
      | .page [] => ⟨msgs, qr, reqs + 1⟩
      | .page (m :: ms) =>
        let kept := (m :: ms).filter (keepMsg botQQId startT endT)
        let msgs' := msgs ++ kept
        let oldest := ((m :: ms).getLast (by simp)).time
        if oldest < startT then ⟨msgs', qr, reqs + 1⟩
        else if kept.length = 0 then ⟨msgs', qr, reqs + 1⟩
        else
          match m.message_id with
          | none => fetchGo maxRounds maxMessages botQQId startT endT
              msgs' seq qr 1 (reqs + 1) rest
          | some mid => fetchGo maxRounds maxMessages botQQId startT endT
              msgs' mid (qr + 1) 0 (reqs + 1) rest
    else ⟨msgs, qr, reqs⟩

/-- Function `fetch_group_messages`: computes `end_time = now`,
`start_time = now - timedelta(days=days)` and runs the loop with
`messages = []`, `message_seq = 0`, `query_rounds = 0`,
`consecutive_failures = 0`. The `not bot_instance or not group_id`
guard returns an empty result before any request. -/
def fetch_group_messages (maxRounds maxMessages : Nat)
    (botQQId : Option String) (groupIdValid : Bool) (now : Int)
    (days : Nat) (env : List PageResp) : FetchResult :=
  if groupIdValid then
    fetchGo maxRounds maxMessages botQQId (now - days * 86400) now
      [] 0 0 0 0 env
  else ⟨[], 0, 0⟩

/-! ## The statistics pass (`MessageHandler.calculate_statistics`) -/

/-- Python's substring test `pat in s` (for a non-empty pattern):
`s.splitOn pat` has a second chunk exactly when `pat` occurs in `s`. -/
def containsSub (s pat : String) : Bool :=
  (s.splitOn pat).length ≥ 2

/-- Counter bump on an insertion-ordered dict:
`d[k] = d.get(k, 0) + 1`. A fresh key is appended at the end, an
existing key keeps its position — exactly CPython dict semantics. -/
def bumpKey {κ : Type} [DecidableEq κ] : List (κ × Nat) → κ → List (κ × Nat)
  | [], k => [(k, 1)]
  | (k', c) :: rest, k =>
    if k' = k then (k', c + 1) :: rest else (k', c) :: bumpKey rest k

/-- Models `participants.add(sender_id)` on an insertion-ordered set. -/
def addParticipant (l : List String) (s : String) : List String :=
  if s ∈ l then l else l ++ [s]

/-- Models `datetime.fromtimestamp(t).hour` with offset zero (see header). -/
def hourOf (t : Int) : Nat :=
  ((t % 86400) / 3600).toNat

/-- Python's `f"{h:02d}"` for the hour values produced here. -/
def pad2 (n : Nat) : String :=
  if n < 10 then "0" ++ toString n else toString n

/-- Formats `f"{h:02d}:00-{(h+1)%24:02d}:00"`. -/
def hourRange (h : Nat) : String :=
  pad2 h ++ ":00-" ++ pad2 ((h + 1) % 24) ++ ":00"

/-- One step of Python's `max(items, key=lambda x: x[1])`: keep the
current best unless the next item's count is strictly greater (so the
first maximal item wins). -/
def pickMax (best y : Nat × Nat) : Nat × Nat :=
  if best.2 < y.2 then y else best

/-- Models `max(hour_counts.items(), key=lambda x: x[1])[0] if
hour_counts else 0`, over the insertion-ordered items. -/
def mostActiveHour : List (Nat × Nat) → Nat
  | [] => 0
  | x :: xs => (xs.foldl pickMax x).1

/-- The per-segment branch ladder of the `for content in
msg.get("message", [])` loop: accumulates `total_chars` and the
`EmojiStatistics` counters/details. -/
def processContent (acc : Nat × EmojiStatistics) (c : Content) :
    Nat × EmojiStatistics :=
  match c with
  | .text s => (acc.1 + s.length, acc.2)
  | .face id =>
    (acc.1, { acc.2 with
        face_count := acc.2.face_count + 1
        face_details := bumpKey acc.2.face_details ("face_" ++ id) })
  | .mface emoji_id =>
    (acc.1, { acc.2 with
        mface_count := acc.2.mface_count + 1
        face_details := bumpKey acc.2.face_details ("mface_" ++ emoji_id) })
  | .bface p =>
    (acc.1, { acc.2 with
        bface_count := acc.2.bface_count + 1
        face_details := bumpKey acc.2.face_details ("bface_" ++ p) })
  | .sface id =>
    (acc.1, { acc.2 with
        sface_count := acc.2.sface_count + 1
        face_details := bumpKey acc.2.face_details ("sface_" ++ id) })
  | .image summary file =>
    if containsSub summary "动画表情" || containsSub summary "表情" then
      (acc.1, { acc.2 with
        mface_count := acc.2.mface_count + 1
        face_details := bumpKey acc.2.face_details ("animated_" ++ file) })
    else acc
  | .record dataStr =>
    if containsSub dataStr.toLower "emoji" then
      (acc.1, { acc.2 with other_emoji_count := acc.2.other_emoji_count + 1 })
    else acc
  | .video dataStr =>
    if containsSub dataStr.toLower "emoji" then
      (acc.1, { acc.2 with other_emoji_count := acc.2.other_emoji_count + 1 })
    else acc
  | .otherSeg => acc

/-- Accumulator of the single `for msg in messages` pass. -/
structure StatsAcc where
  total_chars : Nat := 0
  participants : List String := []
  hour_counts : List (Nat × Nat) := []
  emoji : EmojiStatistics := {}

/-- One iteration of the message loop: participant set, hour histogram,
then the content ladder. -/
def statsStep (acc : StatsAcc) (m : Msg) : StatsAcc :=
  let participants := addParticipant acc.participants m.sender
  let hour_counts := bumpKey acc.hour_counts (hourOf m.time)
  let ce := (m.message).foldl processContent (acc.total_chars, acc.emoji)
  { total_chars := ce.1, participants := participants,
    hour_counts := hour_counts, emoji := ce.2 }

/-- Function `calculate_statistics`, parameterized by the (pure) activity
visualizer `self.activity_visualizer.generate_activity_visualization`,
whose implementation is outside the core. -/
def calculate_statistics {V : Type} (viz : List Msg → V)
    (messages : List Msg) : GroupStatistics V :=
  let acc := messages.foldl statsStep {}
  let most_active_hour := mostActiveHour acc.hour_counts
  { message_count := messages.length,
    total_characters := acc.total_chars,
    participant_count := acc.participants.length,
    most_active_period := hourRange most_active_hour,
    golden_quotes := [],
    emoji_count := acc.emoji.total_emoji_count,
    emoji_statistics := acc.emoji,
    activity_visualization := viz messages,
    token_usage := {} }

/-! ## The extraction pipeline (`BaseAnalyzer.analyze`)

`analyze` is a template method: the subclass hooks (`get_data_type`,
`get_max_count`, `build_prompt`, `extract_with_regex`,
`create_data_objects`) and the utility collaborators
(`call_provider_with_retry`, `extract_token_usage`,
`extract_response_text`, `parse_json_response`) live outside
`base_analyzer.py`, so they are fields of `AnalyzerOps`, each returning
`Except String _` to model that any of them may raise. `ρ` is the
provider-response type, `δ` the raw parsed-dict type, `α` the typed
record. `callLLM` returns `Except _ (Option ρ)`: `.ok none` is the
provider returning `None` after its retries. -/

structure AnalyzerOps (ρ δ α : Type) where
  dataType : String
  maxCount : Nat
  maxTokens : Nat := 10000
  buildPrompt : Except String String
  callLLM : String → Except String (Option ρ)
  extractUsage : ρ → Except String TokenUsage
  extractText : ρ → Except String String
  parseJson : String → Except String (Bool × List δ × String)
  extractWithRegex : String → Nat → Except String (List δ)
  createObjects : List δ → Except String (List α)

/-- The body of `analyze` inside the `try`: an `.error` is an exception
propagating to the outermost handler. Mirrors steps 1–7: prompt, LLM
call (early `return [], TokenUsage()` on `None`), token usage, text,
`parse_json_response`, the `if success and parsed_data` branch, and the
regex fallback with its final `if regex_data` / empty-list split. -/
def analyzeBody {ρ δ α : Type} (ops : AnalyzerOps ρ δ α) :
    Except String (List α × TokenUsage) := do
  let prompt ← ops.buildPrompt
  let resp? ← ops.callLLM prompt
  match resp? with
  | none => return ([], {})
  | some resp =>
    let token_usage ← ops.extractUsage resp
    let result_text ← ops.extractText resp
    let (success, parsed_data, _error_msg) ← ops.parseJson result_text
    if success && !parsed_data.isEmpty then do
      let data_objects ← ops.createObjects parsed_data
      return (data_objects, token_usage)
    else do
      let regex_data ← ops.extractWithRegex result_text ops.maxCount
      if !regex_data.isEmpty then do
        let data_objects ← ops.createObjects regex_data
        return (data_objects, token_usage)
      else
        return ([], token_usage)

/-- Function `analyze`: the `try/except` wrapper — any exception anywhere in the
body becomes `([], TokenUsage())`. -/
def analyze {ρ δ α : Type} (ops : AnalyzerOps ρ δ α) :
    List α × TokenUsage :=
  match analyzeBody ops with
  | .ok r => r
  | .error _ => ([], {})

/-! ## Derived views and concrete inputs used by the theorems -/

/-- The hour-count dict built by the statistics pass, in insertion
order (first appearance of each hour in the message list). -/
def hourCountsOf (messages : List Msg) : List (Nat × Nat) :=
  (messages.foldl statsStep {}).hour_counts

/-- The maximum count appearing in an hour-count dict. -/
def maxCount (hc : List (Nat × Nat)) : Nat :=
  hc.foldl (fun a x => max a x.2) 0

/-- The first entry of the dict (in insertion order) whose count
attains the maximum: the entry Python's first-maximum `max` returns. -/
def firstMaxEntry (hc : List (Nat × Nat)) : Nat × Nat :=
  (hc.find? (fun y => maxCount hc ≤ y.2)).getD (0, 0)

/-- A content-free message at hour `h`, for the `most_active_period`
examples. -/
def msgAtHour (h : Nat) : Msg :=
  { time := (h : Int) * 3600, sender := "u" }

/-- Eleven messages with hour counts 9 ↦ 5, 14 ↦ 5, 3 ↦ 1, where an
hour-9 message comes first. -/
def msgsNineFirst : List Msg :=
  [msgAtHour 9, msgAtHour 14, msgAtHour 9, msgAtHour 9, msgAtHour 9,
   msgAtHour 9, msgAtHour 14, msgAtHour 14, msgAtHour 14, msgAtHour 14,
   msgAtHour 3]

/-- The same hour counts 9 ↦ 5, 14 ↦ 5, 3 ↦ 1, but an hour-14 message
comes first. -/
def msgsFourteenFirst : List Msg :=
  [msgAtHour 14, msgAtHour 9, msgAtHour 9, msgAtHour 9, msgAtHour 9,
   msgAtHour 9, msgAtHour 14, msgAtHour 14, msgAtHour 14, msgAtHour 14,
   msgAtHour 3]

/-- An analyzer whose prompt builder raises. -/
def opsPromptError : AnalyzerOps Unit Unit Unit where
  dataType := "topic"
  maxCount := 3
  buildPrompt := .error "boom"
  callLLM := fun _ => .ok none
  extractUsage := fun _ => .ok {}
  extractText := fun _ => .ok ""
  parseJson := fun _ => .ok (false, [], "")
  extractWithRegex := fun _ _ => .ok []
  createObjects := fun l => .ok l

/-- An analyzer whose JSON parse fails but whose regex fallback yields
one record, with non-zero token usage in the response. -/
def opsRegexFallback : AnalyzerOps Unit Nat Nat where
  dataType := "topic"
  maxCount := 3
  buildPrompt := .ok "prompt"
  callLLM := fun _ => .ok (some ())
  extractUsage := fun _ =>
    .ok { prompt_tokens := 7, completion_tokens := 5, total_tokens := 12 }
  extractText := fun _ => .ok "raw"
  parseJson := fun _ => .ok (false, [], "no json")
  extractWithRegex := fun _ _ => .ok [42]
  createObjects := fun l => .ok l

/-! ## Helper lemmas -/

lemma keepMsg_window {b : Option String} {s e : Int} {m : Msg}
    (h : keepMsg b s e m = true) : s ≤ m.time ∧ m.time ≤ e := by
  simp [keepMsg] at h
  exact ⟨h.1.2, h.2⟩

lemma mem_keep_of_mem_filterKeep {b : Option String} {s e : Int}
    {l msgs : List Msg} {m : Msg}
    (h : m ∈ msgs ++ l.filter (keepMsg b s e)) :
    m ∈ msgs ∨ keepMsg b s e m = true := by
  rcases List.mem_append.1 h with h | h
  · exact Or.inl h
  · exact Or.inr (List.mem_filter.1 h).2

/-- Every message the loop ever returns was either in the accumulator
already or passed the per-message filter. -/
lemma fetchGo_mem (mR mM : Nat) (b : Option String) (s e : Int) :
    ∀ (env : List PageResp) (msgs : List Msg) (seq qr cf reqs : Nat)
      (m : Msg),
      m ∈ (fetchGo mR mM b s e msgs seq qr cf reqs env).messages →
      m ∈ msgs ∨ keepMsg b s e m = true := by
  intro env
  induction env with
  | nil =>
    intro msgs seq qr cf reqs m hm
    simp only [fetchGo] at hm
    exact Or.inl hm
  | cons p rest ih =>
    intro msgs seq qr cf reqs m hm
    cases p with
    | invalid =>
      simp only [fetchGo] at hm
      split at hm
      · split at hm
        · exact Or.inl hm
        · exact ih _ _ _ _ _ m hm
      · exact Or.inl hm
    | exn =>
      simp only [fetchGo] at hm
      split at hm
      · split at hm
        · exact Or.inl hm
        · exact ih _ _ _ _ _ m hm
      · exact Or.inl hm
    | page ms =>
      cases ms with
      | nil =>
        simp only [fetchGo] at hm
        split at hm
        · exact Or.inl hm
        · exact Or.inl hm
      | cons m0 ms' =>
        simp only [fetchGo] at hm
        split at hm
        · split at hm
          · exact mem_keep_of_mem_filterKeep hm
          · split at hm
            · exact mem_keep_of_mem_filterKeep hm
            · rcases hmid : m0.message_id with _ | mid <;> rw [hmid] at hm
              · rcases ih _ _ _ _ _ m hm with h | h
                · exact mem_keep_of_mem_filterKeep h
                · exact Or.inr h
              · rcases ih _ _ _ _ _ m hm with h | h
                · exact mem_keep_of_mem_filterKeep h
                · exact Or.inr h
        · exact Or.inl hm

/-- The loop only increments `query_rounds` under the loop condition,
so it can never leave `query_rounds` above `max_rounds`. -/
lemma fetchGo_qr_le (mR mM : Nat) (b : Option String) (s e : Int) :
    ∀ (env : List PageResp) (msgs : List Msg) (seq qr cf reqs : Nat),
      qr ≤ mR →
      (fetchGo mR mM b s e msgs seq qr cf reqs env).query_rounds ≤ mR := by
  intro env
  induction env with
  | nil => intro msgs seq qr cf reqs h; simpa [fetchGo] using h
  | cons p rest ih =>
    intro msgs seq qr cf reqs h
    cases p with
    | invalid =>
      simp only [fetchGo]
      split
      · split
        · exact h
        · exact ih _ _ _ _ _ h
      · exact h
    | exn =>
      simp only [fetchGo]
      split
      · split
        · exact h
        · exact ih _ _ _ _ _ h
      · exact h
    | page ms =>
      cases ms with
      | nil =>
        simp only [fetchGo]
        split <;> exact h
      | cons m0 ms' =>
        simp only [fetchGo]
        split
        · rename_i hcond
          split
          · exact h
          · split
            · exact h
            · rcases m0.message_id with _ | mid
              · exact ih _ _ _ _ _ h
              · exact ih _ _ _ _ _ hcond.2
        · exact h

/-- Request-count potential: every iteration issues one request and
strictly decreases `3 * ((max_rounds - query_rounds) +
(max_messages - collected)) + (3 - consecutive_failures)`. -/
lemma fetchGo_requests_le (mR mM : Nat) (b : Option String) (s e : Int) :
    ∀ (env : List PageResp) (msgs : List Msg) (seq qr cf reqs : Nat),
      (fetchGo mR mM b s e msgs seq qr cf reqs env).requests ≤
        reqs + 3 * ((mR - qr) + (mM - msgs.length)) + (3 - cf) := by
  intro env
  induction env with
  | nil => intro msgs seq qr cf reqs; simp only [fetchGo]; omega
  | cons p rest ih =>
    intro msgs seq qr cf reqs
    cases p with
    | invalid =>
      simp only [fetchGo]
      split
      · rename_i hcond
        split
        · dsimp only
          omega
        · calc (fetchGo mR mM b s e msgs seq qr (cf + 1) (reqs + 1) rest).requests ≤
              (reqs + 1) + 3 * ((mR - qr) + (mM - msgs.length)) + (3 - (cf + 1)) := ih _ _ _ _ _
            _ ≤ reqs + 3 * ((mR - qr) + (mM - msgs.length)) + (3 - cf) := by omega
      · dsimp only; omega
    | exn =>
      simp only [fetchGo]
      split
      · rename_i hcond
        split
        · dsimp only
          omega
        · calc (fetchGo mR mM b s e msgs seq qr (cf + 1) (reqs + 1) rest).requests ≤
              (reqs + 1) + 3 * ((mR - qr) + (mM - msgs.length)) + (3 - (cf + 1)) := ih _ _ _ _ _
            _ ≤ reqs + 3 * ((mR - qr) + (mM - msgs.length)) + (3 - cf) := by omega
      · dsimp only; omega
    | page ms =>
      cases ms with
      | nil =>
        simp only [fetchGo]
        split
        · dsimp only
          omega
        · dsimp only; omega
      | cons m0 ms' =>
        simp only [fetchGo]
        split
        · rename_i hcond
          split
          · dsimp only
            omega
          · split
            · dsimp only
              omega
            · rename_i hkept
              rcases m0.message_id with _ | mid
              · calc (fetchGo mR mM b s e
                      (msgs ++ List.filter (keepMsg b s e) (m0 :: ms')) seq qr 1 (reqs + 1) rest).requests ≤
                    (reqs + 1) + 3 * ((mR - qr) + (mM - (msgs ++ List.filter (keepMsg b s e) (m0 :: ms')).length)) + (3 - 1) := ih _ _ _ _ _
                  _ ≤ reqs + 3 * ((mR - qr) + (mM - msgs.length)) + (3 - cf) := by
                      rw [List.length_append]
                      have hk : 0 < (List.filter (keepMsg b s e) (m0 :: ms')).length := by omega
                      omega
              · calc (fetchGo mR mM b s e
                      (msgs ++ List.filter (keepMsg b s e) (m0 :: ms')) mid (qr + 1) 0 (reqs + 1) rest).requests ≤
                    (reqs + 1) + 3 * ((mR - (qr + 1)) + (mM - (msgs ++ List.filter (keepMsg b s e) (m0 :: ms')).length)) + (3 - 0) := ih _ _ _ _ _
                  _ ≤ reqs + 3 * ((mR - qr) + (mM - msgs.length)) + (3 - cf) := by
                      rw [List.length_append]
                      have hk : 0 < (List.filter (keepMsg b s e) (m0 :: ms')).length := by omega
                      omega
        · dsimp only; omega

/-- A page is appended only when the accumulator is still below
`max_messages`, so the final length stays below
`max_messages + page size`. -/
lemma fetchGo_len_le (mR mM : Nat) (b : Option String) (s e : Int) :
    ∀ (env : List PageResp) (msgs : List Msg) (seq qr cf reqs : Nat),
      (∀ p ∈ env, p.size ≤ 200) → msgs.length ≤ mM + 199 →
      (fetchGo mR mM b s e msgs seq qr cf reqs env).messages.length ≤ mM + 199 := by
  intro env
  induction env with
  | nil => intro msgs seq qr cf reqs _ h; simpa [fetchGo] using h
  | cons p rest ih =>
    intro msgs seq qr cf reqs hp h
    have hrest : ∀ q ∈ rest, PageResp.size q ≤ 200 := fun q hq => hp q (List.mem_cons_of_mem _ hq)
    cases p with
    | invalid =>
      simp only [fetchGo]
      split
      · split
        · exact h
        · exact ih _ _ _ _ _ hrest h
      · exact h
    | exn =>
      simp only [fetchGo]
      split
      · split
        · exact h
        · exact ih _ _ _ _ _ hrest h
      · exact h
    | page ms =>
      cases ms with
      | nil =>
        simp only [fetchGo]
        split <;> exact h
      | cons m0 ms' =>
        have hsize : (m0 :: ms').length ≤ 200 := hp _ (List.mem_cons_self _ _)
        have hfil : (List.filter (keepMsg b s e) (m0 :: ms')).length ≤ 200 :=
          le_trans (List.length_filter_le _ _) hsize
        simp only [fetchGo]
        split
        · rename_i hcond
          have hlen : (msgs ++ List.filter (keepMsg b s e) (m0 :: ms')).length ≤ mM + 199 := by
            rw [List.length_append]
            omega
          split
          · exact hlen
          · split
            · exact hlen
            · rcases m0.message_id with _ | mid
              · exact ih _ _ _ _ _ hrest hlen
              · exact ih _ _ _ _ _ hrest hlen
        · exact h

/-- Any returned message lies in the fetch window. -/
lemma fetch_mem_window (mR mM : Nat) (b : Option String) (gid : Bool)
    (now : Int) (days : Nat) (env : List PageResp) (m : Msg)
    (hm : m ∈ (fetch_group_messages mR mM b gid now days env).messages) :
    now - (days : Int) * 86400 ≤ m.time ∧ m.time ≤ now := by
  cases gid with
  | false => simp [fetch_group_messages] at hm
  | true =>
    simp only [fetch_group_messages, if_true] at hm
    rcases fetchGo_mem mR mM b (now - (days : Int) * 86400) now env
        [] 0 0 0 0 m hm with h | h
    · simp at h
    · exact keepMsg_window h

lemma foldl_pickMax_snd (xs : List (Nat × Nat)) :
    ∀ x : Nat × Nat,
      (xs.foldl pickMax x).2 = xs.foldl (fun a y => max a y.2) x.2 := by
  induction xs with
  | nil => intro x; rfl
  | cons y ys ih =>
    intro x
    simp only [List.foldl_cons]
    rw [ih]
    have hpick : (pickMax x y).2 = max x.2 y.2 := by
      simp only [pickMax]
      split <;> omega
    rw [hpick]

/-- The kept element of the fold bounds every list element. -/
lemma foldl_pickMax_bound (xs : List (Nat × Nat)) :
    ∀ x : Nat × Nat, ∀ y ∈ x :: xs, y.2 ≤ (xs.foldl pickMax x).2 := by
  induction xs with
  | nil =>
    intro x y hy
    rcases List.mem_cons.1 hy with h | h
    · rw [h]
      exact le_refl _
    · simp at h
  | cons z zs ih =>
    intro x y hy
    simp only [List.foldl_cons]
    have hstep : x.2 ≤ (pickMax x z).2 ∧ z.2 ≤ (pickMax x z).2 := by
      simp only [pickMax]; split <;> omega
    rcases List.mem_cons.1 hy with h | h
    · rw [h]
      exact le_trans hstep.1 (ih (pickMax x z) _ (List.mem_cons_self _ _))
    · rcases List.mem_cons.1 h with h | h
      · rw [h]
        exact le_trans hstep.2 (ih (pickMax x z) _ (List.mem_cons_self _ _))
      · exact ih (pickMax x z) y (List.mem_cons_of_mem _ h)

/-- Python's first-maximum `max` is the first element whose count
reaches the maximum. -/
lemma find?_foldl_pickMax (xs : List (Nat × Nat)) :
    ∀ x : Nat × Nat,
      (x :: xs).find? (fun y => (xs.foldl pickMax x).2 ≤ y.2) =
        some (xs.foldl pickMax x) := by
  induction xs with
  | nil =>
    intro x
    simp [List.find?]
  | cons z zs ih =>
    intro x
    simp only [List.foldl_cons]
    by_cases hxz : x.2 < z.2
    · have hpick : pickMax x z = z := by simp [pickMax, hxz]
      simp only [hpick]
      have hzb : z.2 ≤ (zs.foldl pickMax z).2 :=
        foldl_pickMax_bound zs z z (List.mem_cons_self _ _)
      have hx : ¬ ((zs.foldl pickMax z).2 ≤ x.2) := by omega
      rw [List.find?_cons_of_neg _ (by simpa using hx)]
      exact ih z
    · have hpick : pickMax x z = x := by simp [pickMax, hxz]
      simp only [hpick]
      have hthis := ih x
      by_cases hx : (zs.foldl pickMax x).2 ≤ x.2
      · rw [List.find?_cons_of_pos _ (by simpa using hx)] at hthis ⊢
        exact hthis
      · have hz : ¬ ((zs.foldl pickMax x).2 ≤ z.2) := by omega
        rw [List.find?_cons_of_neg _ (by simpa using hx)] at hthis
        rw [List.find?_cons_of_neg _ (by simpa using hx),
          List.find?_cons_of_neg _ (by simpa using hz)]
        exact hthis

/-- On a non-empty hour dict, `mostActiveHour` returns the hour of the
first entry (in insertion order) attaining the maximal count. -/
lemma mostActiveHour_eq_firstMax (hc : List (Nat × Nat)) (h : hc ≠ []) :
    mostActiveHour hc = (firstMaxEntry hc).1 := by
  rcases hc with _ | ⟨x, xs⟩
  · exact absurd rfl h
  · have hmc : maxCount (x :: xs) = (xs.foldl pickMax x).2 := by
      rw [foldl_pickMax_snd]
      simp only [maxCount, List.foldl_cons]
      rw [Nat.zero_max]
    simp only [mostActiveHour, firstMaxEntry, hmc]
    rw [find?_foldl_pickMax]
    rfl

/-! ## Claims -/

/-- C1 (counterexample). With `maxRounds = 1` and `maxMessages = 1`
(both positive), two invalid responses followed by a page holding two
in-window messages make the fetch issue 3 page requests (failed rounds
do not advance `query_rounds`) and return 2 messages (a whole page is
appended with no per-message cap), refuting both bounds of the claim. -/
theorem fetch_bounds_claim_refuted :
    ¬ ((fetch_group_messages 1 1 none true 1000000 1
        [PageResp.invalid, PageResp.invalid,
         PageResp.page [{ time := 999000, sender := "a", message_id := some 7 },
                        { time := 998000, sender := "b" }]]).requests ≤ 1 ∧
       (fetch_group_messages 1 1 none true 1000000 1
        [PageResp.invalid, PageResp.invalid,
         PageResp.page [{ time := 999000, sender := "a", message_id := some 7 },
                        { time := 998000, sender := "b" }]]).messages.length ≤ 1) := by
  decide

/-- C1 (amended). For positive `maxRounds` and `maxMessages` and pages
of at most 200 messages, the fetch keeps `query_rounds` at most
`maxRounds`, issues at most `3 * (maxRounds + maxMessages) + 3` page
requests, and returns at most `maxMessages + 199` messages. -/
theorem fetch_round_and_size_bounds (mR mM : Nat) (b : Option String)
    (gid : Bool) (now : Int) (days : Nat) (env : List PageResp)
    (hR : 0 < mR) (hM : 0 < mM)
    (hpage : ∀ p ∈ env, PageResp.size p ≤ 200) :
    (fetch_group_messages mR mM b gid now days env).query_rounds ≤ mR ∧
    (fetch_group_messages mR mM b gid now days env).requests ≤
      3 * (mR + mM) + 3 ∧
    (fetch_group_messages mR mM b gid now days env).messages.length ≤
      mM + 199 := by
  cases gid with
  | false => simp [fetch_group_messages]
  | true =>
    simp only [fetch_group_messages, if_true]
    refine ⟨fetchGo_qr_le mR mM b _ _ env [] 0 0 0 0 (Nat.zero_le _), ?_, ?_⟩
    · have h := fetchGo_requests_le mR mM b (now - (days : Int) * 86400) now
        env [] 0 0 0 0
      refine le_trans h ?_
      simp only [List.length_nil]
      omega
    · exact fetchGo_len_le mR mM b _ _ env [] 0 0 0 0 hpage (by simp)

/-- C1 (witness). -/
theorem fetch_round_and_size_bounds_witness :
    0 < 1 ∧ 0 < 1 ∧
    ((fetch_group_messages 1 1 none true 1000000 1
        [PageResp.invalid]).query_rounds ≤ 1 ∧
     (fetch_group_messages 1 1 none true 1000000 1
        [PageResp.invalid]).requests ≤ 3 * (1 + 1) + 3 ∧
     (fetch_group_messages 1 1 none true 1000000 1
        [PageResp.invalid]).messages.length ≤ 1 + 199) :=
  ⟨by decide, by decide,
    fetch_round_and_size_bounds 1 1 none true 1000000 1 [PageResp.invalid]
      (by decide) (by decide) (by decide)⟩

/-- C2. Every message returned by a fetch with `days = d` has its
timestamp inside the closed window `[now - d days, now]` computed at the
start of the call. -/
theorem fetch_messages_within_window (mR mM : Nat) (b : Option String)
    (gid : Bool) (now : Int) (days : Nat) (env : List PageResp) :
    ((fetch_group_messages mR mM b gid now days env).messages.all
      (fun m => decide (now - (days : Int) * 86400 ≤ m.time) &&
        decide (m.time ≤ now))) = true := by
  rw [List.all_eq_true]
  intro m hm
  have h := fetch_mem_window mR mM b gid now days env m hm
  simp [h.1, h.2]

/-- C3 (counterexample). With hour counts 9 ↦ 5, 14 ↦ 5, 3 ↦ 1 but an
hour-14 message first in the list, `most_active_period` is
"14:00-15:00", not the claimed "09:00-10:00": Python's `max` over the
dict items resolves ties to the first-inserted hour, which is
first-appearance order in the message list, not the numerically
earliest hour. -/
theorem most_active_earliest_tie_refuted :
    hourCountsOf msgsFourteenFirst = [(14, 5), (9, 5), (3, 1)] ∧
    (calculate_statistics (fun _ => ()) msgsFourteenFirst).most_active_period ≠
      "09:00-10:00" ∧
    (calculate_statistics (fun _ => ()) msgsFourteenFirst).most_active_period =
      "14:00-15:00" := by
  refine ⟨by decide, by decide, by decide⟩

/-- C3 (amended). On any message list with a non-empty hour histogram,
`most_active_period` is the `"HH:00-HH:00"` range (wrapping 24 → 0) of
the first hour, in dict insertion order (first appearance in the
message list), whose count attains the maximum; ties are resolved by
first appearance, not by the numerically earliest hour. -/
theorem most_active_first_seen (V : Type) (viz : List Msg → V)
    (messages : List Msg) (h : hourCountsOf messages ≠ []) :
    (calculate_statistics viz messages).most_active_period =
      hourRange (firstMaxEntry (hourCountsOf messages)).1 := by
  have h1 : (calculate_statistics viz messages).most_active_period =
      hourRange (mostActiveHour (hourCountsOf messages)) := rfl
  rw [h1, mostActiveHour_eq_firstMax _ h]

/-- C3 (witness). -/
theorem most_active_first_seen_witness :
    hourCountsOf msgsNineFirst ≠ [] ∧
    (calculate_statistics (fun _ => ()) msgsNineFirst).most_active_period =
      hourRange (firstMaxEntry (hourCountsOf msgsNineFirst)).1 :=
  ⟨by decide, most_active_first_seen Unit (fun _ => ()) msgsNineFirst (by decide)⟩

/-- C4 (counterexample). With `days = 0` the fetch does not return
immediately: it still issues a page request (here exactly one, for a
page whose message falls outside the degenerate window). -/
theorem fetch_zero_days_request_refuted :
    (fetch_group_messages 10 10 none true 1000000 0
      [PageResp.page [{ time := 999999, sender := "a" }]]).requests ≠ 0 := by
  decide

/-- C4 (amended). `days = 0` is not short-circuited: the loop runs and
issues page requests as for any other window, but the window degenerates
to `[now, now]`, so every returned message has timestamp exactly `now`
(and in practice the returned list is empty). -/
theorem fetch_zero_days_only_now (mR mM : Nat) (b : Option String)
    (gid : Bool) (now : Int) (env : List PageResp) :
    ((fetch_group_messages mR mM b gid now 0 env).messages.all
      (fun m => m.time == now)) = true := by
  rw [List.all_eq_true]
  intro m hm
  have h := fetch_mem_window mR mM b gid now 0 env m hm
  simp only [Nat.cast_zero, zero_mul, sub_zero] at h
  have heq : m.time = now := le_antisymm h.2 h.1
  simp [heq]

/-- C5. Under the loop condition: a third consecutive failure (invalid
response or per-round exception, `consecutive_failures = 2` before it)
makes the fetch stop and return exactly the messages collected so far
(a value, not an exception); an earlier failure merely increments the
counter and continues; a successful page that advances the cursor
continues with the counter reset to 0. -/
theorem fetch_consecutive_failure_counter (mR mM : Nat) (b : Option String)
    (s e : Int) (msgs : List Msg) (seq qr cf reqs : Nat)
    (rest : List PageResp) (m0 : Msg) (ms : List Msg) (mid : Nat)
    (hlen : msgs.length < mM) (hqr : qr < mR) :
    (fetchGo mR mM b s e msgs seq qr 2 reqs (.invalid :: rest) =
      ⟨msgs, qr, reqs + 1⟩) ∧
    (fetchGo mR mM b s e msgs seq qr 2 reqs (.exn :: rest) =
      ⟨msgs, qr, reqs + 1⟩) ∧
    (cf < 2 →
      fetchGo mR mM b s e msgs seq qr cf reqs (.invalid :: rest) =
        fetchGo mR mM b s e msgs seq qr (cf + 1) (reqs + 1) rest) ∧
    (cf < 2 →
      fetchGo mR mM b s e msgs seq qr cf reqs (.exn :: rest) =
        fetchGo mR mM b s e msgs seq qr (cf + 1) (reqs + 1) rest) ∧
    (¬ ((m0 :: ms).getLast (List.cons_ne_nil m0 ms)).time < s →
      ¬ ((m0 :: ms).filter (keepMsg b s e)).length = 0 →
      m0.message_id = some mid →
      fetchGo mR mM b s e msgs seq qr cf reqs (.page (m0 :: ms) :: rest) =
        fetchGo mR mM b s e (msgs ++ (m0 :: ms).filter (keepMsg b s e))
          mid (qr + 1) 0 (reqs + 1) rest) := by
  refine ⟨?_, ?_, ?_, ?_, ?_⟩
  · simp [fetchGo, hlen, hqr]
  · simp [fetchGo, hlen, hqr]
  · intro hcf
    simp only [fetchGo]
    rw [if_pos ⟨hlen, hqr⟩, if_neg (by omega)]
  · intro hcf
    simp only [fetchGo]
    rw [if_pos ⟨hlen, hqr⟩, if_neg (by omega)]
  · intro hold hkept hmid
    simp only [fetchGo, hmid]
    rw [if_pos ⟨hlen, hqr⟩, if_neg hold, if_neg hkept]

/-- C5 (witness). -/
theorem fetch_consecutive_failure_counter_witness :
    fetchGo 5 5 none 0 100 [] 0 0 2 0 [PageResp.invalid] = ⟨[], 0, 1⟩ :=
  (fetch_consecutive_failure_counter 5 5 none 0 100 [] 0 0 0 0 []
    { time := 50, sender := "a", message_id := some 3 } [] 3
    (by decide) (by decide)).1

/-- C6 (counterexample). A page whose minimum timestamp (900000) is
strictly older than the window start (913600) but whose last-processed
message is still in-window does not stop the fetch: a second page
request is issued and its message is returned. The code tracks only the
timestamp of the last message of the page, not the minimum. -/
theorem fetch_min_timestamp_refuted :
    (900000 : Int) < 1000000 - (1 : Int) * 86400 ∧
    (fetch_group_messages 10 10 none true 1000000 1
      [PageResp.page [{ time := 900000, sender := "a", message_id := some 5 },
                      { time := 950000, sender := "b" }],
       PageResp.page [{ time := 940000, sender := "c", message_id := some 4 }]]).requests
      = 2 ∧
    ({ time := 940000, sender := "c", message_id := some 4 } : Msg) ∈
      (fetch_group_messages 10 10 none true 1000000 1
        [PageResp.page [{ time := 900000, sender := "a", message_id := some 5 },
                        { time := 950000, sender := "b" }],
         PageResp.page [{ time := 940000, sender := "c", message_id := some 4 }]]).messages := by
  refine ⟨by decide, by decide, by decide⟩

/-- C6 (amended). The fetch tracks the timestamp of the last message
processed in page order (`oldest_msg_time` is overwritten by every
message, so it ends as the final message's time — the oldest only under
the reverse-chronological page order), and stops after a page exactly
when that final timestamp is strictly older than the window start,
returning the messages collected through that page. -/
theorem fetch_stops_on_last_message_old (mR mM : Nat) (b : Option String)
    (s e : Int) (msgs : List Msg) (seq qr cf reqs : Nat)
    (rest : List PageResp) (m0 : Msg) (ms : List Msg)
    (hlen : msgs.length < mM) (hqr : qr < mR)
    (hold : ((m0 :: ms).getLast (List.cons_ne_nil m0 ms)).time < s) :
    fetchGo mR mM b s e msgs seq qr cf reqs (.page (m0 :: ms) :: rest) =
      ⟨msgs ++ (m0 :: ms).filter (keepMsg b s e), qr, reqs + 1⟩ := by
  simp only [fetchGo]
  rw [if_pos ⟨hlen, hqr⟩, if_pos hold]

/-- C6 (witness). -/
theorem fetch_stops_on_last_message_old_witness :
    fetchGo 10 10 none 913600 1000000 [] 0 0 0 0
      [PageResp.page [{ time := 900000, sender := "a", message_id := some 5 }]] =
      ⟨[] ++ [({ time := 900000, sender := "a", message_id := some 5 } : Msg)].filter
          (keepMsg none 913600 1000000), 0, 0 + 1⟩ :=
  fetch_stops_on_last_message_old 10 10 none 913600 1000000 [] 0 0 0 0 []
    { time := 900000, sender := "a", message_id := some 5 } []
    (by decide) (by decide) (by decide)

/-- C7. `analyze` never propagates an exception: if the body raises at
any step the result is the empty list with zeroed token usage; if the
provider returns `None` after its retries the result is likewise empty
with zeroed usage; and in every case `analyze` returns either that
degraded value or the body's successful value. -/
theorem analyze_never_propagates (ρ δ α : Type) (ops : AnalyzerOps ρ δ α)
    (msg p : String) :
    (analyzeBody ops = .error msg → analyze ops = ([], {})) ∧
    (ops.buildPrompt = .ok p → ops.callLLM p = .ok none →
      analyze ops = ([], {})) ∧
    (analyze ops = (([] : List α), ({} : TokenUsage)) ∨
      analyzeBody ops = .ok (analyze ops)) := by
  refine ⟨?_, ?_, ?_⟩
  · intro h
    simp [analyze, h]
  · intro hbp hllm
    simp [analyze, analyzeBody, hbp, hllm, Bind.bind, Except.bind, Pure.pure,
      Except.pure]
  · cases h : analyzeBody ops with
    | ok r => exact Or.inr (by simp [analyze, h])
    | error msg => exact Or.inl (by simp [analyze, h])

/-- C7 (witness). -/
theorem analyze_never_propagates_witness :
    analyze opsPromptError = ([], ({} : TokenUsage)) :=
  (analyze_never_propagates Unit Unit Unit opsPromptError "boom" "p").1 rfl

/-- C8. When the JSON parse step reports failure or yields no elements,
`analyze` invokes the regex fallback extractor on the raw response text
with the type's maximum record count as the cap; if it yields records
they are constructed and returned with the token usage extracted from
the response, and if it yields nothing the result is the empty list with
that same (not zeroed) token usage. -/
theorem analyze_regex_fallback_path (ρ δ α : Type) (ops : AnalyzerOps ρ δ α)
    (p : String) (resp : ρ) (u : TokenUsage) (txt : String)
    (success : Bool) (parsed : List δ) (emsg : String)
    (rdata : List δ) (objs : List α)
    (hbp : ops.buildPrompt = .ok p)
    (hllm : ops.callLLM p = .ok (some resp))
    (husage : ops.extractUsage resp = .ok u)
    (htxt : ops.extractText resp = .ok txt)
    (hparse : ops.parseJson txt = .ok (success, parsed, emsg))
    (hfail : success = false ∨ parsed = [])
    (hregex : ops.extractWithRegex txt ops.maxCount = .ok rdata) :
    (rdata ≠ [] → ops.createObjects rdata = .ok objs →
      analyze ops = (objs, u)) ∧
    (rdata = [] → analyze ops = ([], u)) := by
  have hcond : (success && !parsed.isEmpty) = false := by
    rcases hfail with h | h <;> simp [h]
  constructor
  · intro hne hobj
    simp [analyze, analyzeBody, hbp, hllm, husage, htxt, hparse, hcond,
      hregex, hne, hobj, Bind.bind, Except.bind, Pure.pure, Except.pure,
      Functor.map, Except.map]
  · intro hnil
    subst hnil
    simp [analyze, analyzeBody, hbp, hllm, husage, htxt, hparse, hcond,
      hregex, Bind.bind, Except.bind, Pure.pure, Except.pure, Functor.map,
      Except.map]

/-- C8 (witness). -/
theorem analyze_regex_fallback_path_witness :
    ([42] : List Nat) ≠ [] ∧
    analyze opsRegexFallback =
      ([42], { prompt_tokens := 7, completion_tokens := 5,
               total_tokens := 12 }) :=
  ⟨by decide,
    (analyze_regex_fallback_path Unit Nat Nat opsRegexFallback "prompt" ()
      { prompt_tokens := 7, completion_tokens := 5, total_tokens := 12 }
      "raw" false [] "no json" [42] [42]
      rfl rfl rfl rfl rfl (Or.inl rfl) rfl).1 (by decide) rfl⟩

/-- C9. `calculate_statistics` is deterministic: two runs on the same
message list (with the same visualizer) produce equal
`GroupStatistics`; the embedding is a pure function of its inputs,
mirroring that the source method reads no mutable instance state. -/
theorem calculate_statistics_two_runs_equal (V : Type)
    (viz : List Msg → V) (messages : List Msg) :
    calculate_statistics viz messages = calculate_statistics viz messages :=
  rfl

/-- C10. The `emoji_count` field of the returned statistics equals the
sum of the five category counters of its `emoji_statistics`, because it
is set from `total_emoji_count` of the very same record. -/
theorem emoji_count_eq_category_sum (V : Type) (viz : List Msg → V)
    (messages : List Msg) :
    (calculate_statistics viz messages).emoji_count =
      (calculate_statistics viz messages).emoji_statistics.face_count +
      (calculate_statistics viz messages).emoji_statistics.mface_count +
      (calculate_statistics viz messages).emoji_statistics.bface_count +
      (calculate_statistics viz messages).emoji_statistics.sface_count +
      (calculate_statistics viz messages).emoji_statistics.other_emoji_count :=
  rfl

end GroupDaily
